import Mathlib

/-!
Shallow embedding of the core of the `rocm_monitor` repository
(collection-and-retention engine): the rocm-smi text parser
(`rocm_data.go`), sample validation, and the collector's bounded
history store (`collector.go`, provided as `src/unnamed/part_000`).

Modelling conventions:
* Go `float64` fields are modelled as `Rat`.  Every numeric operation the
  claims touch (regex-extracted decimal literals, range comparisons,
  division of byte counts by 2^30) is exact on the values involved, so no
  floating-point rounding is modelled.
* Go `time.Time` / `time.Duration` are modelled as `Int` (nanoseconds).
* Strings are modelled as `List Char`; the handful of fixed regular
  expressions from `NewParser` are transliterated into explicit scanning
  functions with the same leftmost-match semantics (see each definition).
* Go map iteration order is unspecified; `ParseRocmSMIOutput` therefore
  takes the iteration order of the per-device section map as an explicit
  `order : List Nat` argument, constrained to be a permutation of the
  map's key set.
-/

/-- Per-device telemetry record (struct `GPU` in `rocm_data.go`). -/
structure GPU where
  id : Nat
  name : String
  temperature : Rat
  power : Rat
  vramUsage : Rat
  vramTotal : Rat
  gpuUsage : Rat
  fanSpeed : Rat
  sclkFreq : Rat
  mclkFreq : Rat
deriving DecidableEq, Repr

/-- One monitoring snapshot (struct `RocmData` in `rocm_data.go`). -/
structure RocmData where
  timestamp : Int
  gpus : List GPU
  cpuUsage : Rat
deriving DecidableEq, Repr

/-- Errors of `Parser.ParseRocmSMIOutput`: "empty rocm-smi output" and
"no GPU data found in output". -/
inductive ParseErr where
  | emptyInput
  | noDeviceData
deriving DecidableEq, Repr

deriving instance DecidableEq for Except

/-- Field range checks of `RocmData.Validate` for one GPU: rejects when
`Temperature < 0 || Temperature > 150`, `Power < 0 || Power > 1000`, or
`GPUUsage < 0 || GPUUsage > 100`. -/
def GPU.fieldsOutOfRange (g : GPU) : Bool :=
  (g.temperature < 0 || 150 < g.temperature) ||
  (g.power < 0 || 1000 < g.power) ||
  (g.gpuUsage < 0 || 100 < g.gpuUsage)

/-- `RocmData.Validate` (rocm_data.go:474-498) as an acceptance predicate:
`true` exactly when `Validate` returns `nil`.  `Validate` errors when the
GPU list is empty, when any GPU fails a range check, or when
`CPUUsage < 0 || CPUUsage > 100`. -/
def RocmData.validateOk (d : RocmData) : Bool :=
  !(d.gpus.length = 0) &&
  d.gpus.all (fun g => ! g.fieldsOutOfRange) &&
  !(d.cpuUsage < 0 || 100 < d.cpuUsage)

/-- Collector state (struct `Collector` in the collector source file).
`running` abstracts whether the collect loop goroutine is active
(`ctx` not yet cancelled). -/
structure Collector where
  history : List RocmData
  maxHistory : Nat
  interval : Int
  running : Bool
deriving DecidableEq, Repr

/-- Configuration for `NewCollector`; `maxHistory`/`interval` are an
`int` and a `time.Duration`, either of which may be non-positive. -/
structure CollectorConfig where
  maxHistory : Int
  interval : Int
deriving DecidableEq, Repr

/-- `NewCollector`: non-positive `MaxHistory` defaults to 1000,
non-positive `Interval` defaults to 5 s (5·10^9 ns); the history starts
empty and the loop is not yet started. -/
def NewCollector (cfg : CollectorConfig) : Collector :=
  let m : Int := if cfg.maxHistory ≤ 0 then 1000 else cfg.maxHistory
  let i : Int := if cfg.interval ≤ 0 then 5000000000 else cfg.interval
  { history := [], maxHistory := m.toNat, interval := i, running := false }

/-- The history-store step of `Collector.collect` (lines 142-151):
append the sample at the tail, then if the length exceeds `maxHistory`
keep only the most recent `maxHistory` entries
(`history = history[len(history)-maxHistory:]`). -/
def appendHistory (maxH : Nat) (h : List RocmData) (d : RocmData) : List RocmData :=
  let h2 := h ++ [d]
  if maxH < h2.length then h2.drop (h2.length - maxH) else h2

/-- One collection round of `Collector.collect`, given the result of
parsing the combined rocm-smi output and the measured CPU usage: a parse
error aborts the round; otherwise the sample is enriched with the CPU
usage, validated, and appended only when validation passes. -/
def Collector.collect (c : Collector) (res : Except ParseErr RocmData) (cpu : Rat) :
    Collector :=
  match res with
  | .error _ => c
  | .ok d =>
      let d2 : RocmData := { d with cpuUsage := cpu }
      if d2.validateOk then
        { c with history := appendHistory c.maxHistory c.history d2 }
      else c

/-- `Collector.GetLatest` (lines 171-181): `none` models the
"no data available" error, otherwise the last element of the history. -/
def Collector.getLatest (c : Collector) : Option RocmData :=
  if c.history.length = 0 then none
  else c.history.getLast?

/-- `Collector.SetInterval` (lines 184-198): non-positive durations
return immediately with no state change; positive durations stop the
loop, store the new interval, and restart (so the final state is
running with the new interval). -/
def Collector.setInterval (c : Collector) (d : Int) : Collector :=
  if d ≤ 0 then c
  else { c with interval := d, running := true }

/-- `Collector.ClearHistory` (lines 201-206). -/
def Collector.clearHistory (c : Collector) : Collector :=
  { c with history := [] }

/-- The time-window filter of `statsHandler` (main.go:134-141): keep the
samples whose `Timestamp.After(now - duration)` holds, i.e. timestamp
strictly greater than the cutoff. -/
def windowFilter (history : List RocmData) (now dur : Int) : List RocmData :=
  history.filter (fun s => now - dur < s.timestamp)

section CapacityLemmas

/-- `NewCollector` never produces a zero capacity. -/
theorem NewCollector_maxHistory_pos (cfg : CollectorConfig) :
    1 ≤ (NewCollector cfg).maxHistory := by
  unfold NewCollector
  by_cases h : cfg.maxHistory ≤ 0
  · simp [h]
  · simp only [h, if_false]
    push_neg at h
    omega

/-- Folding the append-and-truncate step from the empty history over any
sample sequence keeps exactly the final `maxH`-suffix of the sequence
(for `maxH ≥ 1`; `List.drop` truncates at zero). -/
theorem foldl_appendHistory (maxH : Nat) (hpos : 1 ≤ maxH) (s : List RocmData) :
    s.foldl (appendHistory maxH) [] = s.drop (s.length - maxH) := by
  induction s using List.reverseRecOn with
  | nil => simp
  | append_singleton l a ih =>
      rw [List.foldl_append, List.foldl_cons, List.foldl_nil, ih]
      have hlen : (l ++ [a]).length = l.length + 1 := by simp
      by_cases hl : l.length ≤ maxH
      · have h0 : l.length - maxH = 0 := by omega
        rw [h0, List.drop_zero]
        unfold appendHistory
        by_cases h2 : maxH < (l ++ [a]).length
        · simp only [if_pos h2]
        · simp only [if_neg h2]
          have h3 : (l ++ [a]).length - maxH = 0 := by omega
          rw [h3, List.drop_zero]
      · push_neg at hl
        have hdl : (l.drop (l.length - maxH)).length = maxH := by
          rw [List.length_drop]; omega
        unfold appendHistory
        have hcond : maxH < (l.drop (l.length - maxH) ++ [a]).length := by
          rw [List.length_append, hdl]; simp
        rw [if_pos hcond]
        have hd1 : (l.drop (l.length - maxH) ++ [a]).length - maxH = 1 := by
          rw [List.length_append, hdl]; simp
        rw [hd1]
        rw [List.drop_append_of_le_length (by rw [hdl]; omega)]
        rw [List.drop_drop]
        rw [hlen, List.drop_append_of_le_length (by omega)]
        have heq : l.length - maxH + 1 = l.length + 1 - maxH := by omega
        rw [heq]

end CapacityLemmas

/-- C1: with the capacity `N` fixed by `NewCollector` (default 1000 when
the configured value is non-positive), any sequence of history appends
starting from the empty history leaves at most `N` samples, and once
more than `N` samples have been appended exactly the most recent `N`
remain, in original (head-first, oldest-evicted) order. -/
theorem C1_capacity_bound (cfg : CollectorConfig) (s : List RocmData) :
    let N := (NewCollector cfg).maxHistory
    (s.foldl (appendHistory N) (NewCollector cfg).history).length ≤ N ∧
    (N < s.length →
      s.foldl (appendHistory N) (NewCollector cfg).history = s.drop (s.length - N)) ∧
    (cfg.maxHistory ≤ 0 → N = 1000) := by
  intro N
  have hpos : 1 ≤ N := NewCollector_maxHistory_pos cfg
  have hhist : (NewCollector cfg).history = [] := rfl
  rw [hhist]
  have hfold := foldl_appendHistory N hpos s
  refine ⟨?_, fun _ => hfold, fun h => ?_⟩
  · rw [hfold, List.length_drop]
    omega
  · show (NewCollector cfg).maxHistory = 1000
    unfold NewCollector
    simp [h]

/-- Witness for C1 at a concrete input: capacity configured to -1
defaults to 1000, and appending 1001 samples keeps the most recent
1000 (the sequence minus its head). -/
theorem C1_capacity_bound_witness :
    ((List.replicate 1001 (⟨0, [], 0⟩ : RocmData)).foldl
        (appendHistory (NewCollector ⟨-1, 0⟩).maxHistory)
        (NewCollector ⟨-1, 0⟩).history).length ≤ (NewCollector ⟨-1, 0⟩).maxHistory ∧
    (List.replicate 1001 (⟨0, [], 0⟩ : RocmData)).foldl
        (appendHistory (NewCollector ⟨-1, 0⟩).maxHistory) (NewCollector ⟨-1, 0⟩).history
      = (List.replicate 1001 (⟨0, [], 0⟩ : RocmData)).drop
          ((List.replicate 1001 (⟨0, [], 0⟩ : RocmData)).length
            - (NewCollector ⟨-1, 0⟩).maxHistory) ∧
    (NewCollector ⟨-1, 0⟩).maxHistory = 1000 := by
  have h := C1_capacity_bound ⟨-1, 0⟩ (List.replicate 1001 (⟨0, [], 0⟩ : RocmData))
  have hm : (NewCollector (⟨-1, 0⟩ : CollectorConfig)).maxHistory = 1000 := by decide
  refine ⟨h.1, h.2.1 ?_, h.2.2 (by decide)⟩
  rw [hm, List.length_replicate]
  norm_num

section LatestLemmas

theorem appendHistory_getLast? (maxH : Nat) (hpos : 1 ≤ maxH) (h : List RocmData)
    (d : RocmData) : (appendHistory maxH h d).getLast? = some d := by
  unfold appendHistory
  by_cases hl : maxH < (h ++ [d]).length
  · rw [if_pos hl]
    have hk : (h ++ [d]).length - maxH ≤ h.length := by
      rw [List.length_append]; simp; omega
    rw [List.drop_append_of_le_length hk]
    exact List.getLast?_concat _
  · rw [if_neg hl]
    exact List.getLast?_concat _

end LatestLemmas

/-- C9: `GetLatest` fails with the "no data available" error exactly when
the history is empty; on a non-empty history it returns the last element,
and in particular right after a round appended sample `d` it returns `d`. -/
theorem C9_getLatest (c : Collector) :
    (c.getLatest = none ↔ c.history = []) ∧
    (∀ (h : List RocmData) (s : RocmData), c.history = h ++ [s] → c.getLatest = some s) ∧
    (1 ≤ c.maxHistory → ∀ d : RocmData,
      ({ c with history := appendHistory c.maxHistory c.history d } : Collector).getLatest
        = some d) := by
  refine ⟨⟨?_, ?_⟩, ?_, ?_⟩
  · intro hnone
    by_contra hne
    obtain ⟨l, s, hcs⟩ := List.eq_nil_or_concat c.history |>.resolve_left hne
    unfold Collector.getLatest at hnone
    rw [hcs, List.concat_eq_append] at hnone
    rw [if_neg (by simp)] at hnone
    rw [List.getLast?_concat] at hnone
    exact Option.noConfusion hnone
  · intro he
    unfold Collector.getLatest
    rw [if_pos (by rw [he]; rfl)]
  · intro h s he
    unfold Collector.getLatest
    rw [if_neg (by rw [he]; simp), he, List.getLast?_concat]
  · intro hpos d
    unfold Collector.getLatest
    have hlast := appendHistory_getLast? c.maxHistory hpos c.history d
    have hne : (appendHistory c.maxHistory c.history d).length ≠ 0 := by
      intro h0
      rw [List.length_eq_zero] at h0
      rw [h0] at hlast
      exact Option.noConfusion hlast
    simpa [hne] using hlast

/-- Witness for C9 at concrete states: the empty store errors, a store
holding `[s]` returns `s`, and appending `d` to a concrete store makes
`d` the latest. -/
theorem C9_getLatest_witness :
    (Collector.getLatest ⟨[], 5, 5, true⟩ = none) ∧
    (Collector.getLatest ⟨[⟨1, [], 0⟩], 5, 5, true⟩ = some ⟨1, [], 0⟩) ∧
    (Collector.getLatest
        ⟨appendHistory 5 [⟨1, [], 0⟩] ⟨2, [], 0⟩, 5, 5, true⟩ = some ⟨2, [], 0⟩) :=
  ⟨(C9_getLatest ⟨[], 5, 5, true⟩).1.mpr rfl,
   (C9_getLatest ⟨[⟨1, [], 0⟩], 5, 5, true⟩).2.1 [] ⟨1, [], 0⟩ rfl,
   (C9_getLatest ⟨[⟨1, [], 0⟩], 5, 5, true⟩).2.2 (by decide) ⟨2, [], 0⟩⟩

/-- C10: `SetInterval` with a non-positive duration is a complete no-op
(the whole collector state, hence interval, history and running flag, is
unchanged); with a positive duration the stored interval becomes `d` and
the history is untouched. -/
theorem C10_setInterval (c : Collector) (d : Int) :
    (d ≤ 0 → c.setInterval d = c) ∧
    (0 < d → (c.setInterval d).interval = d ∧
      (c.setInterval d).history = c.history ∧
      (c.setInterval d).maxHistory = c.maxHistory) := by
  constructor
  · intro hd
    unfold Collector.setInterval
    rw [if_pos hd]
  · intro hd
    unfold Collector.setInterval
    rw [if_neg (by omega)]
    exact ⟨rfl, rfl, rfl⟩

/-- Witness for C10 at concrete inputs: `SetInterval (-3)` and
`SetInterval 0` leave the collector unchanged; `SetInterval 7` stores 7
without touching the history. -/
theorem C10_setInterval_witness :
    (Collector.setInterval ⟨[⟨1, [], 0⟩], 5, 5, true⟩ (-3) = ⟨[⟨1, [], 0⟩], 5, 5, true⟩) ∧
    (Collector.setInterval ⟨[⟨1, [], 0⟩], 5, 5, true⟩ 0 = ⟨[⟨1, [], 0⟩], 5, 5, true⟩) ∧
    ((Collector.setInterval ⟨[⟨1, [], 0⟩], 5, 5, true⟩ 7).interval = 7 ∧
      (Collector.setInterval ⟨[⟨1, [], 0⟩], 5, 5, true⟩ 7).history = [⟨1, [], 0⟩]) := by
  refine ⟨(C10_setInterval ⟨[⟨1, [], 0⟩], 5, 5, true⟩ (-3)).1 (by norm_num),
    (C10_setInterval ⟨[⟨1, [], 0⟩], 5, 5, true⟩ 0).1 (by norm_num), ?_, ?_⟩
  · exact ((C10_setInterval ⟨[⟨1, [], 0⟩], 5, 5, true⟩ 7).2 (by norm_num)).1
  · exact ((C10_setInterval ⟨[⟨1, [], 0⟩], 5, 5, true⟩ 7).2 (by norm_num)).2.1

/-- `Validate` acceptance, spelled out: non-empty device list, every
device in range, CPU usage in range (boundary values pass). -/
theorem validateOk_true_iff (d : RocmData) :
    d.validateOk = true ↔
      (d.gpus ≠ [] ∧
       (∀ g ∈ d.gpus,
          0 ≤ g.temperature ∧ g.temperature ≤ 150 ∧
          0 ≤ g.power ∧ g.power ≤ 1000 ∧
          0 ≤ g.gpuUsage ∧ g.gpuUsage ≤ 100) ∧
       0 ≤ d.cpuUsage ∧ d.cpuUsage ≤ 100) := by
  unfold RocmData.validateOk GPU.fieldsOutOfRange
  simp only [Bool.and_eq_true, Bool.not_eq_true', List.all_eq_true, Bool.or_eq_false_iff,
    decide_eq_false_iff_not, not_lt, List.length_eq_zero, and_assoc]

/-- C2 (amended): `Validate` rejects a sample exactly when the device
list is empty, OR some device has a field out of range, OR the host CPU
usage is out of range; and a collection round whose enriched sample fails
validation leaves the collector (in particular its history) unchanged. -/
theorem C2_validation_rejects (d : RocmData) (c : Collector) (cpu : Rat) :
    (d.validateOk = false ↔
      (d.gpus = [] ∨
        (∃ g ∈ d.gpus,
          g.temperature < 0 ∨ 150 < g.temperature ∨
          g.power < 0 ∨ 1000 < g.power ∨
          g.gpuUsage < 0 ∨ 100 < g.gpuUsage) ∨
        d.cpuUsage < 0 ∨ 100 < d.cpuUsage)) ∧
    (({ d with cpuUsage := cpu } : RocmData).validateOk = false →
      c.collect (.ok d) cpu = c) := by
  constructor
  · rw [Bool.eq_false_iff, Ne, validateOk_true_iff]
    constructor
    · intro h
      by_contra hc
      push_neg at hc
      exact h ⟨hc.1, fun g hg => by
        have h2 := hc.2.1 g hg
        exact ⟨h2.1, h2.2.1, h2.2.2.1, h2.2.2.2.1, h2.2.2.2.2.1, h2.2.2.2.2.2⟩,
        hc.2.2.1, hc.2.2.2⟩
    · rintro (h | ⟨g, hg, hbad⟩ | h | h) ⟨he, hall, hc1, hc2⟩
      · exact he h
      · obtain ⟨a1, a2, a3, a4, a5, a6⟩ := hall g hg
        rcases hbad with hb | hb | hb | hb | hb | hb
        · exact absurd hb (not_lt.mpr a1)
        · exact absurd hb (not_lt.mpr a2)
        · exact absurd hb (not_lt.mpr a3)
        · exact absurd hb (not_lt.mpr a4)
        · exact absurd hb (not_lt.mpr a5)
        · exact absurd hb (not_lt.mpr a6)
      · exact absurd h (not_lt.mpr hc1)
      · exact absurd h (not_lt.mpr hc2)
  · intro hfail
    simp only [Collector.collect]
    rw [if_neg (by rw [hfail]; exact Bool.false_ne_true)]

/-- Counterexample to C2 as stated: the sample with an empty device list
and in-range host CPU usage has no device violating any range invariant,
yet `Validate` rejects it (the "no GPU data available" branch), so
"rejects exactly when some device field or the CPU usage is out of
range" is false. -/
theorem C2_empty_devices_counterexample :
    (⟨0, [], 0⟩ : RocmData).validateOk = false ∧
    (¬ ∃ g ∈ (⟨0, [], 0⟩ : RocmData).gpus,
        g.temperature < 0 ∨ 150 < g.temperature ∨
        g.power < 0 ∨ 1000 < g.power ∨
        g.gpuUsage < 0 ∨ 100 < g.gpuUsage) ∧
    ¬((⟨0, [], 0⟩ : RocmData).cpuUsage < 0 ∨ 100 < (⟨0, [], 0⟩ : RocmData).cpuUsage) := by
  refine ⟨rfl, ?_, ?_⟩
  · rintro ⟨g, hg, -⟩
    exact absurd hg (List.not_mem_nil g)
  · rintro (h | h) <;> exact absurd h (by norm_num)

/-- Witness for C2: a round whose sample carries temperature 200 fails
validation and leaves the collector unchanged. -/
theorem C2_validation_rejects_witness :
    Collector.collect ⟨[], 5, 5, true⟩
        (.ok ⟨0, [⟨0, "", 200, 10, 0, 0, 5, 0, 0, 0⟩], 0⟩) 0
      = ⟨[], 5, 5, true⟩ :=
  (C2_validation_rejects ⟨0, [⟨0, "", 200, 10, 0, 0, 5, 0, 0, 0⟩], 0⟩
    ⟨[], 5, 5, true⟩ 0).2 (by decide)

section WindowLemmas

/-- On a timestamp-sorted history, filtering by "timestamp after cutoff"
is exactly dropping the too-old prefix. -/
theorem windowFilter_eq_dropWhile (h : List RocmData) (now dur : Int)
    (hs : h.Pairwise (fun a b => a.timestamp ≤ b.timestamp)) :
    windowFilter h now dur = h.dropWhile (fun s => s.timestamp ≤ now - dur) := by
  unfold windowFilter
  induction h with
  | nil => rfl
  | cons x rest ih =>
      rw [List.pairwise_cons] at hs
      by_cases hx : now - dur < x.timestamp
      · rw [List.filter_cons_of_pos (by simpa using hx)]
        rw [List.dropWhile_cons_of_neg (by simpa using not_le.mpr hx)]
        rw [List.filter_eq_self.mpr]
        intro y hy
        simpa using lt_of_lt_of_le hx (hs.1 y hy)
      · rw [List.filter_cons_of_neg (by simpa using hx)]
        rw [List.dropWhile_cons_of_pos (by simpa using not_lt.mp hx)]
        exact ih hs.2

end WindowLemmas

/-- C8 (amended): on a timestamp-sorted history, the window filter of
`statsHandler` keeps exactly the samples with timestamp STRICTLY after
`now - dur` (a sample exactly at the cutoff is excluded, because the Go
code keeps `Timestamp.After(cutoff)`), and the result is a suffix of the
history. -/
theorem C8_window_suffix (h : List RocmData) (now dur : Int)
    (hs : h.Pairwise (fun a b => a.timestamp ≤ b.timestamp)) :
    windowFilter h now dur = h.dropWhile (fun s => s.timestamp ≤ now - dur) ∧
    (∀ s, s ∈ windowFilter h now dur ↔ s ∈ h ∧ now - dur < s.timestamp) ∧
    ∃ dropped, h = dropped ++ windowFilter h now dur := by
  refine ⟨windowFilter_eq_dropWhile h now dur hs, ?_, ?_⟩
  · intro s
    unfold windowFilter
    simp [List.mem_filter]
  · refine ⟨h.takeWhile (fun s => s.timestamp ≤ now - dur), ?_⟩
    rw [windowFilter_eq_dropWhile h now dur hs]
    exact (List.takeWhile_append_dropWhile _ _).symm

/-- Witness for C8, the spec's own example: samples at t−10m, t−3m and
t−1m (minutes as integers, now = 10), window 5m keeps only the last two,
in order. -/
theorem C8_window_suffix_witness :
    windowFilter [⟨0, [], 0⟩, ⟨7, [], 0⟩, ⟨9, [], 0⟩] 10 5
      = [⟨7, [], 0⟩, ⟨9, [], 0⟩] := by
  have h := C8_window_suffix [⟨0, [], 0⟩, ⟨7, [], 0⟩, ⟨9, [], 0⟩] 10 5 (by decide)
  rw [h.1]
  rfl

/-- Counterexample to C8 as stated: a sample whose timestamp is exactly
`now - dur` is not "older than now minus dur", yet the code's strict
`After(cutoff)` filter drops it: the window of a one-sample history at
the exact cutoff is empty although every sample satisfies the claim's
inclusive "within dur of now" condition. -/
theorem C8_boundary_counterexample :
    windowFilter [⟨5, [], 0⟩] 10 5 = [] ∧
    (List.filter (fun s => decide (10 - 5 ≤ s.timestamp)) [(⟨5, [], 0⟩ : RocmData)]
      = [⟨5, [], 0⟩]) := by
  constructor <;> rfl

/-- Go slice-header view of one stored sample: the `GPUs` field of a
`RocmData` struct value is a slice header; `gpusPtr` is the index of its
backing array in the shared heap. -/
structure RocmDataRef where
  timestamp : Int
  gpusPtr : Nat
  cpuUsage : Rat
deriving DecidableEq, Repr

/-- The collector's timeline with explicit backing storage for the
per-sample `[]GPU` slices, to model Go aliasing. -/
structure HistoryStore where
  heap : List (List GPU)
  history : List RocmDataRef
deriving DecidableEq, Repr

/-- `Collector.GetHistory` (lines 158-168): `make` + `copy` duplicates
the top-level slice of `RocmData` struct values; each copied struct's
`GPUs` field is the same slice header (same backing array), so the copy
carries the same `gpusPtr` values and the heap is not duplicated. -/
def HistoryStore.getHistory (st : HistoryStore) : List RocmDataRef :=
  st.history

/-- A caller executing `snapshot[i].GPUs[j] = g` on the slice returned by
`GetHistory`: the write goes through the shared backing array. -/
def HistoryStore.writeDevice (st : HistoryStore) (snapshot : List RocmDataRef)
    (i j : Nat) (g : GPU) : HistoryStore :=
  match snapshot.get? i with
  | none => st
  | some r =>
      { st with heap := st.heap.set r.gpusPtr ((st.heap.getD r.gpusPtr []).set j g) }

/-- The store's timeline as observable values: each stored sample with
its device array dereferenced through the heap. -/
def HistoryStore.timeline (st : HistoryStore) : List (Int × List GPU × Rat) :=
  st.history.map (fun r => (r.timestamp, st.heap.getD r.gpusPtr [], r.cpuUsage))

/-- C3 is violated by the code: `GetHistory` copies only the top-level
slice, so the per-device backing arrays are shared between the returned
snapshot and the store; writing a device record through the returned
snapshot changes the store's observable timeline. Concrete run: a store
holding one sample with one device, the caller sets
`snapshot[0].GPUs[0].Temperature` to 999, and the store's timeline now
shows temperature 999 instead of 40. -/
theorem C3_shallow_copy_aliasing :
    HistoryStore.timeline
        (HistoryStore.writeDevice ⟨[[⟨0, "", 40, 10, 1, 2, 5, 0, 0, 0⟩]], [⟨100, 0, 7⟩]⟩
          (HistoryStore.getHistory ⟨[[⟨0, "", 40, 10, 1, 2, 5, 0, 0, 0⟩]], [⟨100, 0, 7⟩]⟩)
          0 0 ⟨0, "", 999, 10, 1, 2, 5, 0, 0, 0⟩)
      ≠ HistoryStore.timeline ⟨[[⟨0, "", 40, 10, 1, 2, 5, 0, 0, 0⟩]], [⟨100, 0, 7⟩]⟩ := by
  decide

/-! ### Parser (`rocm_data.go`)

Each pre-compiled regex of `NewParser` is transliterated into an explicit
scanner over `List Char`.  For these patterns (number token `\d+\.?\d*`
followed by `\s*`/`\s+` and a literal that never starts with a digit, a
dot or a whitespace character) greedy matching without backtracking finds
exactly the leftmost match RE2 finds, and the scanners advance one
character at a time exactly like `FindStringSubmatch`. -/

/-- RE2 `\s` character class: `[\t\n\f\r ]`. -/
def goSpace (c : Char) : Bool :=
  c = ' ' || c = '\t' || c = '\n' || c = '\x0c' || c = '\r'

/-- Decimal value of a digit string (the semantics of `strconv.Atoi` on
the `(\d+)` captures). -/
def natOfDigits (l : List Char) : Nat :=
  l.foldl (fun a c => a * 10 + (c.toNat - 48)) 0

/-- Capture of the number token `\d+\.?\d*`: greedy digits, optional dot,
greedy digits.  Returns (integer digits, fraction digits) and the rest of
the input, `none` when the input does not start with a digit. -/
def numToken (s : List Char) : Option ((List Char × List Char) × List Char) :=
  let ip := s.takeWhile Char.isDigit
  let r1 := s.dropWhile Char.isDigit
  if ip.isEmpty then none
  else
    match r1 with
    | '.' :: r2 => some ((ip, r2.takeWhile Char.isDigit), r2.dropWhile Char.isDigit)
    | _ => some ((ip, []), r1)

/-- `strconv.ParseFloat` of a captured number token, as the exact decimal
value `ip + frac/10^k` (`digits.digits`); the concrete values in this
development are all exactly representable in float64, so `Rat` loses
nothing.  Written with `mkRat` so that the kernel evaluates it. -/
def ratOfToken (t : List Char × List Char) : Rat :=
  mkRat (natOfDigits t.1 * 10 ^ t.2.length + natOfDigits t.2) (10 ^ t.2.length)

/-- Strip an exact literal from the front of the input. -/
def stripLit : List Char → List Char → Option (List Char)
  | [], s => some s
  | _ :: _, [] => none
  | c :: cs, x :: xs => if x = c then stripLit cs xs else none

/-- `\s+` before a non-whitespace literal: at least one whitespace
character, then greedily more. -/
def spaces1 : List Char → Option (List Char)
  | [] => none
  | c :: cs => if goSpace c then some (cs.dropWhile goSpace) else none

/-- `(\d+\.?\d*)\s*LIT` anchored at the start of `s`. -/
def numLitAt (lit : List Char) (s : List Char) : Option Rat :=
  match numToken s with
  | none => none
  | some (tok, r1) =>
      match stripLit lit (r1.dropWhile goSpace) with
      | none => none
      | some _ => some (ratOfToken tok)

/-- Leftmost match of `(\d+\.?\d*)\s*LIT` (the `tempRegex` / `powerRegex`
patterns under `FindStringSubmatch`). -/
def findNumLit (lit : List Char) : List Char → Option Rat
  | [] => none
  | c :: cs =>
      match numLitAt lit (c :: cs) with
      | some v => some v
      | none => findNumLit lit cs

/-- `(\d+\.?\d*)%\s+(\d+\.?\d*)%\s*$` anchored at the start of `s` and
required to reach the end of the input (`vramRegex`). -/
def vramPairAt (s : List Char) : Option (Rat × Rat) :=
  match numToken s with
  | none => none
  | some (t1, r1) =>
      match r1 with
      | '%' :: r2 =>
          match spaces1 r2 with
          | none => none
          | some r3 =>
              match numToken r3 with
              | none => none
              | some (t2, r4) =>
                  match r4 with
                  | '%' :: r5 =>
                      if (r5.dropWhile goSpace).isEmpty then
                        some (ratOfToken t1, ratOfToken t2)
                      else none
                  | _ => none
      | _ => none

/-- Leftmost match of `vramRegex` in a section. -/
def vramPairScan : List Char → Option (Rat × Rat)
  | [] => none
  | c :: cs =>
      match vramPairAt (c :: cs) with
      | some p => some p
      | none => vramPairScan cs

/-- `(\d+\.?\d*)%\s+auto` anchored at the start of `s` (`fanRegex`). -/
def fanAt (s : List Char) : Option Rat :=
  match numToken s with
  | none => none
  | some (t1, r1) =>
      match r1 with
      | '%' :: r2 =>
          match spaces1 r2 with
          | none => none
          | some r3 =>
              match stripLit (String.toList "auto") r3 with
              | none => none
              | some _ => some (ratOfToken t1)
      | _ => none

/-- Leftmost match of `fanRegex` in a section. -/
def fanScan : List Char → Option Rat
  | [] => none
  | c :: cs =>
      match fanAt (c :: cs) with
      | some v => some v
      | none => fanScan cs

/-- `deviceIDRegex` `^(\d+)\s+`: a line that starts with digits followed
by at least one whitespace character names that device's summary line. -/
def deviceLineId (line : List Char) : Option Nat :=
  let ds := line.takeWhile Char.isDigit
  if ds.isEmpty then none
  else
    match line.dropWhile Char.isDigit with
    | c :: _ => if goSpace c then some (natOfDigits ds) else none
    | [] => none

/-- `strings.Split(output, "\n")`. -/
def splitNL : List Char → List (List Char)
  | [] => [[]]
  | c :: cs =>
      if c = '\n' then [] :: splitNL cs
      else
        match splitNL cs with
        | [] => [[c]]
        | l :: ls => (c :: l) :: ls

/-- Go map assignment `m[k] = v` on an insertion-ordered association
list with distinct keys. -/
def updateAssoc {A : Type} : List (Nat × A) → Nat → A → List (Nat × A)
  | [], k, v => [(k, v)]
  | (k2, v2) :: rest, k, v =>
      if k2 = k then (k2, v) :: rest else (k2, v2) :: updateAssoc rest k v

/-- Go map lookup `m[k]`. -/
def lookupAssoc {A : Type} : List (Nat × A) → Nat → Option A
  | [], _ => none
  | (k, v) :: m, i => if k = i then some v else lookupAssoc m i

/-- `Parser.splitByGPU` (rocm_data.go:172-190): each line matching
`deviceIDRegex` becomes (replaces) that device's section; if no line
matches, the entire output becomes implicit device 0. -/
def splitByGPU (output : List Char) : List (Nat × List Char) :=
  let sections := (splitNL output).foldl
    (fun m line =>
      match deviceLineId line with
      | some id => updateAssoc m id line
      | none => m) []
  if sections.isEmpty then [(0, output)] else sections

/-- `GPU\[(\d+)\]\s*:\s*LABEL\s*(\d+)` anchored at the start of `s`,
where LABEL is the total / used byte-count label of `vramTotalRegex` /
`vramUsedRegex`. -/
def vramBytesAt (label : List Char) (s : List Char) : Option (Nat × Nat) :=
  match stripLit (String.toList "GPU[") s with
  | none => none
  | some r1 =>
      let ds := r1.takeWhile Char.isDigit
      if ds.isEmpty then none
      else
        match r1.dropWhile Char.isDigit with
        | ']' :: r2 =>
            match r2.dropWhile goSpace with
            | ':' :: r3 =>
                match stripLit label (r3.dropWhile goSpace) with
                | none => none
                | some r4 =>
                    let bs := (r4.dropWhile goSpace).takeWhile Char.isDigit
                    if bs.isEmpty then none
                    else some (natOfDigits ds, natOfDigits bs)
            | _ => none
        | _ => none
  
/-- All matches of the byte-count pattern (`FindAllStringSubmatch`),
left to right.  Advancing one character at a time is equivalent to Go's
advance-past-the-match because a match never contains a second `GPU[`
occurrence, so matches cannot overlap. -/
def vramBytesScan (label : List Char) : List Char → List (Nat × Nat)
  | [] => []
  | c :: cs =>
      match vramBytesAt label (c :: cs) with
      | some p => p :: vramBytesScan label cs
      | none => vramBytesScan label cs

/-- Bytes → gigabytes: `bytes / (1024*1024*1024)` (exact on `Rat`,
written with `mkRat` so that the kernel evaluates it). -/
def bytesToGB (n : Nat) : Rat := mkRat n (1024 * 1024 * 1024)

/-- The `vramTotalMap` / `vramUsedMap` built in `ParseRocmSMIOutput`
(lines 90-110): later matches for the same id overwrite earlier ones. -/
def vramMapOf (label : List Char) (output : List Char) : List (Nat × Rat) :=
  (vramBytesScan label output).foldl
    (fun m p => updateAssoc m p.1 (bytesToGB p.2)) []

/-- `GPU\[<id>\]\s*:\s*LABEL\s*\d+:\s*\((\d+)Mhz\)` anchored at the
start of `s`; the device id is interpolated into the pattern as its
literal decimal digits (`fmt.Sprintf`), LABEL is `sclk clock level:` or
`mclk clock level:`. -/
def clockAt (label : List Char) (id : Nat) (s : List Char) : Option Rat :=
  match stripLit (String.toList "GPU[" ++ (Nat.repr id).toList ++ [']']) s with
  | none => none
  | some r1 =>
      match r1.dropWhile goSpace with
      | ':' :: r2 =>
          match stripLit label (r2.dropWhile goSpace) with
          | none => none
          | some r3 =>
              let r4 := r3.dropWhile goSpace
              let lv := r4.takeWhile Char.isDigit
              if lv.isEmpty then none
              else
                match r4.dropWhile Char.isDigit with
                | ':' :: r5 =>
                    match r5.dropWhile goSpace with
                    | '(' :: r6 =>
                        let fs := r6.takeWhile Char.isDigit
                        if fs.isEmpty then none
                        else
                          match stripLit (String.toList "Mhz)")
                              (r6.dropWhile Char.isDigit) with
                          | some _ => some ((natOfDigits fs : Nat) : Rat)
                          | none => none
                    | _ => none
                | _ => none
      | _ => none

/-- First match of the per-device clock pattern in the whole output
(`FindStringSubmatch`, rocm_data.go:142-151). -/
def clockScan (label : List Char) (id : Nat) : List Char → Option Rat
  | [] => none
  | c :: cs =>
      match clockAt label id (c :: cs) with
      | some v => some v
      | none => clockScan label id cs

/-- The per-section body of the parse loop (rocm_data.go:115-161): each
field keeps its zero value when its pattern does not match; the detailed
VRAM maps override the section-derived total and usage when present. -/
def parseGPU (output : List Char) (vtMap vuMap : List (Nat × Rat)) (id : Nat)
    (sect : List Char) : GPU :=
  let temp := (findNumLit (String.toList "°C") sect).getD 0
  let pow := (findNumLit ['W'] sect).getD 0
  let vg := (vramPairScan sect).getD (0, 0)
  let fan := (fanScan sect).getD 0
  let sclk := (clockScan (String.toList "sclk clock level:") id output).getD 0
  let mclk := (clockScan (String.toList "mclk clock level:") id output).getD 0
  let vtotal := (lookupAssoc vtMap id).getD 0
  let vused :=
    match lookupAssoc vuMap id with
    | some u => u
    | none => vg.1
  { id := id, name := "", temperature := temp, power := pow, vramUsage := vused,
    vramTotal := vtotal, gpuUsage := vg.2, fanSpeed := fan, sclkFreq := sclk,
    mclkFreq := mclk }

/-- The label of `vramTotalRegex`. -/
def vramTotalLabel : List Char := String.toList "VRAM Total Memory (B):"

/-- The label of `vramUsedRegex`. -/
def vramUsedLabel : List Char := String.toList "VRAM Total Used Memory (B):"

/-- The `data.GPUs` list built by the section loop of
`ParseRocmSMIOutput` (rocm_data.go:115-162), iterating the section map
in iteration order `order`. -/
def parsedGPUs (output : List Char) (order : List Nat) : List GPU :=
  order.filterMap
    (fun id => (lookupAssoc (splitByGPU output) id).map
      (parseGPU output (vramMapOf vramTotalLabel output)
        (vramMapOf vramUsedLabel output) id))

/-- `Parser.ParseRocmSMIOutput` (rocm_data.go:79-169).  The Go `for id,
section := range gpuSections` ranges over a map in unspecified order;
`order` is that iteration order, constrained in the theorems to be a
permutation of the section map's keys. -/
def ParseRocmSMIOutput (output : List Char) (order : List Nat) :
    Except ParseErr (List GPU) :=
  if output = [] then .error .emptyInput
  else if parsedGPUs output order = [] then .error .noDeviceData
  else .ok (parsedGPUs output order)

/-- A Go-map iteration order is any permutation of the key set. -/
def validOrder (output : List Char) (order : List Nat) : Prop :=
  order.Perm ((splitByGPU output).map Prod.fst)

section ParseLemmas

/-- The section map is never empty: when no line matches the device
pattern, the whole output becomes implicit device 0. -/
theorem splitByGPU_ne_nil (output : List Char) : splitByGPU output ≠ [] := by
  unfold splitByGPU
  set m := (splitNL output).foldl
    (fun m line =>
      match deviceLineId line with
      | some id => updateAssoc m id line
      | none => m) [] with hm
  by_cases h : m.isEmpty = true
  · rw [if_pos h]
    exact List.cons_ne_nil _ _
  · rw [if_neg h]
    intro hnil
    rw [hnil] at h
    exact h rfl

/-- A key of an association list always has a binding. -/
theorem lookupAssoc_isSome_of_mem {A : Type} (m : List (Nat × A)) (i : Nat)
    (hi : i ∈ m.map Prod.fst) : (lookupAssoc m i).isSome := by
  induction m with
  | nil => simp at hi
  | cons p rest ih =>
      unfold lookupAssoc
      by_cases hk : p.1 = i
      · rw [if_pos hk]; rfl
      · rw [if_neg hk]
        apply ih
        rcases List.mem_map.mp hi with ⟨q, hq, hqi⟩
        rcases List.mem_cons.mp hq with hq1 | hq2
        · exact absurd (hq1 ▸ hqi) hk
        · exact List.mem_map.mpr ⟨q, hq2, hqi⟩

end ParseLemmas

/-- C4: `ParseRocmSMIOutput` fails exactly on empty input: the empty
string yields the empty-input error; every non-empty input, under any
Go-map iteration order of the section map, yields a non-empty device
list (the no-device-data branch is unreachable). -/
theorem C4_parse_fails_only_empty (output : List Char) (order : List Nat)
    (h : validOrder output order) :
    (output = [] → ParseRocmSMIOutput output order = Except.error ParseErr.emptyInput) ∧
    (output ≠ [] →
      ∃ gpus, ParseRocmSMIOutput output order = Except.ok gpus ∧ gpus ≠ []) ∧
    ParseRocmSMIOutput output order ≠ Except.error ParseErr.noDeviceData := by
  have hkeys : (splitByGPU output).map Prod.fst ≠ [] := by
    intro hk
    exact splitByGPU_ne_nil output (List.map_eq_nil_iff.mp hk)
  have horder : order ≠ [] := by
    intro ho
    rw [ho] at h
    exact hkeys (List.Perm.eq_nil h.symm)
  have hmain : output ≠ [] →
      ∃ gpus, ParseRocmSMIOutput output order = Except.ok gpus ∧ gpus ≠ [] := by
    intro hne
    obtain ⟨i, rest, hor⟩ := List.exists_cons_of_ne_nil horder
    have hmem : i ∈ (splitByGPU output).map Prod.fst :=
      h.subset (hor ▸ List.mem_cons_self i rest)
    obtain ⟨sect, hsect⟩ :=
      Option.isSome_iff_exists.mp (lookupAssoc_isSome_of_mem _ i hmem)
    have hgne : parsedGPUs output order ≠ [] := by
      rw [hor]
      unfold parsedGPUs
      rw [List.filterMap_cons, hsect, Option.map_some']
      exact List.cons_ne_nil _ _
    refine ⟨parsedGPUs output order, ?_, hgne⟩
    unfold ParseRocmSMIOutput
    rw [if_neg hne, if_neg hgne]
  refine ⟨fun he => by unfold ParseRocmSMIOutput; rw [if_pos he], hmain, ?_⟩
  by_cases hne : output = []
  · intro hcon
    unfold ParseRocmSMIOutput at hcon
    rw [if_pos hne] at hcon
    exact ParseErr.noConfusion (Except.error.inj hcon)
  · obtain ⟨gpus, hok, -⟩ := hmain hne
    rw [hok]
    intro hcon
    exact Except.noConfusion hcon

/-- Witness for C4 at concrete inputs: a non-empty output with no device
line still parses into one implicit device-0 record, and the empty
output yields the empty-input error (with the respective valid map
iteration orders). -/
theorem C4_parse_fails_only_empty_witness :
    (∃ gpus, ParseRocmSMIOutput (String.toList "abc") [0] = Except.ok gpus ∧
      gpus ≠ []) ∧
    ParseRocmSMIOutput [] [0] = Except.error ParseErr.emptyInput := by
  constructor
  · exact (C4_parse_fails_only_empty (String.toList "abc") [0]
      (by unfold validOrder; decide)).2.1 (by decide)
  · exact (C4_parse_fails_only_empty [] [0] (by unfold validOrder; decide)).1 rfl

/-- Counterexample to C5 as stated: on the spec's literal input the
temperature pattern `(\d+\.?\d*)\s*°C` does not match the token `45.0c`
(lower-case `c`, no degree sign), so the parsed device's temperature is
0, not 45 as the claim requires ([0] is the only iteration order, the
section map's key list being exactly [0]). -/
theorem C5_temperature_counterexample :
    (splitByGPU (String.toList "0  45.0c  120.0W  ...  50%  80%\n")).map Prod.fst = [0] ∧
    ((ParseRocmSMIOutput (String.toList "0  45.0c  120.0W  ...  50%  80%\n")
        [0]).toOption.getD []).map GPU.temperature = [0] ∧
    ((0 : Rat) = 45 → False) := by
  refine ⟨by decide, by decide, by decide⟩

/-- C5 (amended): feeding the Parser the literal input
`"0  45.0c  120.0W  ...  50%  80%\n"` yields exactly one device with
power_w 120.0, percentage-derived vram_usage 50.0 and gpu_usage_pct
80.0, but temperature_c 0.0 (not 45.0): the `45.0c` token does not match
the parser's Celsius pattern, which requires `°C`, so the temperature
keeps its zero value. -/
theorem C5_literal_parse :
    ParseRocmSMIOutput (String.toList "0  45.0c  120.0W  ...  50%  80%\n") [0]
      = Except.ok [⟨0, "", 0, 120, 50, 0, 80, 0, 0, 0⟩] ∧
    (splitByGPU (String.toList "0  45.0c  120.0W  ...  50%  80%\n")).map Prod.fst
      = [0] := by
  refine ⟨by decide, by decide⟩

section VramMapLemmas

theorem lookupAssoc_updateAssoc {A : Type} (m : List (Nat × A)) (k : Nat) (v : A)
    (i : Nat) :
    lookupAssoc (updateAssoc m k v) i = if k = i then some v else lookupAssoc m i := by
  induction m with
  | nil =>
      unfold updateAssoc lookupAssoc
      by_cases h : k = i
      · rw [if_pos h, if_pos h]
      · rw [if_neg h, if_neg h]
        rfl
  | cons p rest ih =>
      unfold updateAssoc
      by_cases hk : p.1 = k
      · rw [if_pos hk]
        unfold lookupAssoc
        subst hk
        by_cases hi : p.1 = i
        · simp [hi]
        · simp [hi]
      · rw [if_neg hk]
        unfold lookupAssoc
        by_cases hi : p.1 = i
        · have hki : ¬ k = i := fun h => hk (by rw [h, ← hi])
          simp [hi, hki]
        · simp [hi, ih]

/-- Building two association maps in parallel from the same match list,
one storing `f` of each value, keeps lookups pointwise `f`-related. -/
theorem lookupAssoc_foldl_update_map {A B : Type} (f : A → B) (l : List (Nat × A))
    (i : Nat) :
    ∀ (mA : List (Nat × A)) (mB : List (Nat × B)),
    (∀ j, lookupAssoc mB j = (lookupAssoc mA j).map f) →
    lookupAssoc (l.foldl (fun m p => updateAssoc m p.1 (f p.2)) mB) i
      = (lookupAssoc (l.foldl (fun m p => updateAssoc m p.1 p.2) mA) i).map f := by
  induction l with
  | nil => exact fun mA mB h => h i
  | cons p rest ih =>
      intro mA mB h
      simp only [List.foldl_cons]
      apply ih
      intro j
      rw [lookupAssoc_updateAssoc, lookupAssoc_updateAssoc]
      by_cases hj : p.1 = j
      · rw [if_pos hj, if_pos hj]
        rfl
      · rw [if_neg hj, if_neg hj]
        exact h j

/-- The byte-count map before GB conversion: the byte figure each device
id ends up bound to (later matches overwrite earlier ones). -/
def rawVramMap (label : List Char) (output : List Char) : List (Nat × Nat) :=
  (vramBytesScan label output).foldl (fun m p => updateAssoc m p.1 p.2) []

theorem lookup_vramMapOf (label output : List Char) (i : Nat) :
    lookupAssoc (vramMapOf label output) i
      = (lookupAssoc (rawVramMap label output) i).map bytesToGB := by
  unfold vramMapOf rawVramMap
  exact lookupAssoc_foldl_update_map bytesToGB (vramBytesScan label output) i [] []
    (fun _ => rfl)

theorem bytesToGB_eq_div (n : Nat) : bytesToGB n = (n : Rat) / 2 ^ 30 := by
  unfold bytesToGB
  rw [Rat.mkRat_eq_div]
  norm_num

theorem parseGPU_vramUsage (output : List Char) (vt vu : List (Nat × Rat)) (i : Nat)
    (sect : List Char) :
    (parseGPU output vt vu i sect).vramUsage
      = match lookupAssoc vu i with
        | some u => u
        | none => ((vramPairScan sect).getD (0, 0)).1 := rfl

theorem parseGPU_vramTotal (output : List Char) (vt vu : List (Nat × Rat)) (i : Nat)
    (sect : List Char) :
    (parseGPU output vt vu i sect).vramTotal = (lookupAssoc vt i).getD 0 := rfl

end VramMapLemmas

/-- C7: for any output and any device id `i` with a section, the parsed
record for `i` takes its `vramUsage` from the detailed used-bytes map
when a `GPU[i] : VRAM Total Used Memory (B): N` match is present
(value `N / 2^30` gigabytes, overriding the trailing-percentage pair of
its section) and keeps the percentage-derived value otherwise; likewise
`vramTotal` is `N / 2^30` from the total-bytes map, or its zero value
when absent. -/
theorem C7_vram_override (output : List Char) (order : List Nat) (i : Nat)
    (sect : List Char) (hne : output ≠ []) (hi : i ∈ order)
    (hsect : lookupAssoc (splitByGPU output) i = some sect) :
    ∃ gpus, ParseRocmSMIOutput output order = Except.ok gpus ∧
      parseGPU output (vramMapOf vramTotalLabel output)
        (vramMapOf vramUsedLabel output) i sect ∈ gpus ∧
      (∀ n : Nat, lookupAssoc (rawVramMap vramUsedLabel output) i = some n →
        (parseGPU output (vramMapOf vramTotalLabel output)
          (vramMapOf vramUsedLabel output) i sect).vramUsage = (n : Rat) / 2 ^ 30) ∧
      (lookupAssoc (rawVramMap vramUsedLabel output) i = none →
        (parseGPU output (vramMapOf vramTotalLabel output)
          (vramMapOf vramUsedLabel output) i sect).vramUsage
          = ((vramPairScan sect).getD (0, 0)).1) ∧
      (∀ n : Nat, lookupAssoc (rawVramMap vramTotalLabel output) i = some n →
        (parseGPU output (vramMapOf vramTotalLabel output)
          (vramMapOf vramUsedLabel output) i sect).vramTotal = (n : Rat) / 2 ^ 30) ∧
      (lookupAssoc (rawVramMap vramTotalLabel output) i = none →
        (parseGPU output (vramMapOf vramTotalLabel output)
          (vramMapOf vramUsedLabel output) i sect).vramTotal = 0) := by
  have hmem : parseGPU output (vramMapOf vramTotalLabel output)
      (vramMapOf vramUsedLabel output) i sect ∈ parsedGPUs output order := by
    unfold parsedGPUs
    exact List.mem_filterMap.mpr ⟨i, hi, by rw [hsect]; rfl⟩
  have hgne : parsedGPUs output order ≠ [] := List.ne_nil_of_mem hmem
  refine ⟨parsedGPUs output order, ?_, hmem, ?_, ?_, ?_, ?_⟩
  · unfold ParseRocmSMIOutput
    rw [if_neg hne, if_neg hgne]
  · intro n hn
    rw [parseGPU_vramUsage, lookup_vramMapOf, hn]
    simp only [Option.map_some']
    exact bytesToGB_eq_div n
  · intro hn
    rw [parseGPU_vramUsage, lookup_vramMapOf, hn]
    rfl
  · intro n hn
    rw [parseGPU_vramTotal, lookup_vramMapOf, hn]
    simp only [Option.map_some', Option.getD_some]
    exact bytesToGB_eq_div n
  · intro hn
    rw [parseGPU_vramTotal, lookup_vramMapOf, hn]
    rfl

/-- The combined output of the C7 witness: a device summary line whose
trailing percentage pair reports VRAM 50%, followed by detailed VRAM
byte-count lines for device 0 (3 GiB total, 2 GiB used). -/
def c7out : List Char := String.toList
  ("0  45.0°C  120.0W  50%  80%\n" ++
   "GPU[0] : VRAM Total Memory (B): 3221225472\n" ++
   "GPU[0] : VRAM Total Used Memory (B): 2147483648\n")

/-- The section of device 0 inside `c7out`. -/
def c7line : List Char := String.toList "0  45.0°C  120.0W  50%  80%"

/-- Witness for C7: on `c7out` the used-bytes match overrides the
percentage-derived 50 with 2147483648/2^30 = 2 GB, and the total becomes
3221225472/2^30 = 3 GB. -/
theorem C7_vram_override_witness :
    ∃ gpus, ParseRocmSMIOutput c7out [0] = Except.ok gpus ∧
      parseGPU c7out (vramMapOf vramTotalLabel c7out)
        (vramMapOf vramUsedLabel c7out) 0 c7line ∈ gpus ∧
      (parseGPU c7out (vramMapOf vramTotalLabel c7out)
        (vramMapOf vramUsedLabel c7out) 0 c7line).vramUsage
        = (2147483648 : Rat) / 2 ^ 30 ∧
      (parseGPU c7out (vramMapOf vramTotalLabel c7out)
        (vramMapOf vramUsedLabel c7out) 0 c7line).vramTotal
        = (3221225472 : Rat) / 2 ^ 30 ∧
      ((vramPairScan c7line).getD (0, 0)).1 = 50 := by
  obtain ⟨gpus, hok, hmem, hu, -, ht, -⟩ :=
    C7_vram_override c7out [0] 0 c7line (by decide) (by decide) (by decide)
  exact ⟨gpus, hok, hmem, hu 2147483648 (by decide), ht 3221225472 (by decide),
    by decide⟩

section ThreeLineLemmas

theorem splitNL_append (xs ys : List Char) (h : '\n' ∉ xs) :
    splitNL (xs ++ '\n' :: ys) = xs :: splitNL ys := by
  induction xs with
  | nil => simp [splitNL]
  | cons c cs ih =>
      have hc : ¬ c = '\n' := fun hh => h (hh ▸ List.mem_cons_self c cs)
      have h2 : '\n' ∉ cs := fun hh => h (List.mem_cons_of_mem c hh)
      simp only [List.cons_append, splitNL, List.append_eq]
      rw [if_neg hc, ih h2]

theorem takeWhile_digits_append (d : List Char) (hd : ∀ c ∈ d, c.isDigit = true)
    (c : Char) (hc : c.isDigit = false) (rest : List Char) :
    (d ++ c :: rest).takeWhile Char.isDigit = d ∧
    (d ++ c :: rest).dropWhile Char.isDigit = c :: rest := by
  induction d with
  | nil => simp [List.takeWhile, List.dropWhile, hc]
  | cons x xs ih =>
      have hx : x.isDigit = true := hd x (List.mem_cons_self x xs)
      have hxs : ∀ a ∈ xs, a.isDigit = true := fun a ha =>
        hd a (List.mem_cons_of_mem x ha)
      obtain ⟨h1, h2⟩ := ih hxs
      constructor
      · simp only [List.cons_append, List.takeWhile_cons, hx, if_true, h1]
      · simp only [List.cons_append, List.dropWhile_cons, hx, if_true, h2]

/-- A line of the form `digits ++ " " ++ rest` matches `deviceIDRegex`
with its leading digit run as the device id. -/
theorem deviceLineId_append (d rest : List Char) (hne : d ≠ [])
    (hd : ∀ c ∈ d, c.isDigit = true) :
    deviceLineId (d ++ ' ' :: rest) = some (natOfDigits d) := by
  obtain ⟨ht, hdr⟩ := takeWhile_digits_append d hd ' ' (by decide) rest
  unfold deviceLineId
  rw [ht, hdr]
  rw [if_neg (by simpa using hne)]
  rfl

/-- Three lines joined by newlines, with a trailing newline. -/
def threeLines (l0 l1 l2 : List Char) : List Char :=
  l0 ++ '\n' :: (l1 ++ '\n' :: (l2 ++ ['\n']))

theorem splitNL_threeLines (l0 l1 l2 : List Char)
    (h0 : '\n' ∉ l0) (h1 : '\n' ∉ l1) (h2 : '\n' ∉ l2) :
    splitNL (threeLines l0 l1 l2) = [l0, l1, l2, []] := by
  unfold threeLines
  rw [splitNL_append _ _ h0, splitNL_append _ _ h1, splitNL_append _ _ h2]
  rfl

theorem splitByGPU_threeLines (i0 i1 i2 : Nat) (l0 l1 l2 : List Char)
    (hl0 : deviceLineId l0 = some i0) (hl1 : deviceLineId l1 = some i1)
    (hl2 : deviceLineId l2 = some i2)
    (hs : splitNL (threeLines l0 l1 l2) = [l0, l1, l2, []])
    (h01 : i0 ≠ i1) (h02 : i0 ≠ i2) (h12 : i1 ≠ i2) :
    splitByGPU (threeLines l0 l1 l2) = [(i0, l0), (i1, l1), (i2, l2)] := by
  unfold splitByGPU
  rw [hs]
  have hnil : deviceLineId ([] : List Char) = none := rfl
  simp only [List.foldl_cons, List.foldl_nil, hl0, hl1, hl2, hnil, updateAssoc,
    h01, h02, h12, if_false, List.isEmpty_cons, Bool.false_eq_true, ite_false]

theorem filterMap_eq_map_of_forall {α β : Type} (l : List α) (g : α → Option β)
    (h : α → β) (H : ∀ a ∈ l, g a = some (h a)) : l.filterMap g = l.map h := by
  induction l with
  | nil => rfl
  | cons a as ih =>
      rw [List.filterMap_cons, H a (List.mem_cons_self a as), List.map_cons,
        ih (fun b hb => H b (List.mem_cons_of_mem a hb))]

end ThreeLineLemmas

/-- The record the parse loop builds for device `id` from section `line`
inside combined output `output` (with its detailed VRAM maps). -/
def lineGPU (output : List Char) (id : Nat) (line : List Char) : GPU :=
  parseGPU output (vramMapOf vramTotalLabel output) (vramMapOf vramUsedLabel output)
    id line

/-- C6 (amended): an input of exactly three device lines (each a digit
run, a space, and a newline-free remainder) with three distinct device
indices splits into exactly those three sections keyed by their own
leading index, and under any Go-map iteration order the parse succeeds
with exactly three records, each built from its own line — as a
permutation (the map iteration order, not the index order, determines
the list order). -/
theorem C6_three_device_lines
    (d0 d1 d2 r0 r1 r2 l0 l1 l2 input : List Char) (i0 i1 i2 : Nat)
    (order : List Nat)
    (he0 : l0 = d0 ++ ' ' :: r0) (he1 : l1 = d1 ++ ' ' :: r1)
    (he2 : l2 = d2 ++ ' ' :: r2)
    (hin : input = threeLines l0 l1 l2)
    (hi0 : i0 = natOfDigits d0) (hi1 : i1 = natOfDigits d1)
    (hi2 : i2 = natOfDigits d2)
    (hd0 : d0 ≠ []) (hdd0 : ∀ c ∈ d0, c.isDigit = true)
    (hd1 : d1 ≠ []) (hdd1 : ∀ c ∈ d1, c.isDigit = true)
    (hd2 : d2 ≠ []) (hdd2 : ∀ c ∈ d2, c.isDigit = true)
    (hr0 : '\n' ∉ r0) (hr1 : '\n' ∉ r1) (hr2 : '\n' ∉ r2)
    (h01 : i0 ≠ i1) (h02 : i0 ≠ i2) (h12 : i1 ≠ i2)
    (hord : order.Perm [i0, i1, i2]) :
    splitByGPU input = [(i0, l0), (i1, l1), (i2, l2)] ∧
    (parsedGPUs input order).length = 3 ∧
    (parsedGPUs input order).Perm
      [lineGPU input i0 l0, lineGPU input i1 l1, lineGPU input i2 l2] ∧
    ParseRocmSMIOutput input order = Except.ok (parsedGPUs input order) := by
  have hdigit_ne_nl : ∀ (d : List Char), (∀ c ∈ d, c.isDigit = true) → '\n' ∉ d := by
    intro d hdig hm
    have := hdig '\n' hm
    exact absurd this (by decide)
  have hnl : ∀ (d r : List Char), (∀ c ∈ d, c.isDigit = true) → '\n' ∉ r →
      '\n' ∉ d ++ ' ' :: r := by
    intro d r hdig hr hm
    rcases List.mem_append.mp hm with hm | hm
    · exact hdigit_ne_nl d hdig hm
    · rcases List.mem_cons.mp hm with hm | hm
      · exact absurd hm (by decide)
      · exact hr hm
  have hnl0 : '\n' ∉ l0 := he0 ▸ hnl d0 r0 hdd0 hr0
  have hnl1 : '\n' ∉ l1 := he1 ▸ hnl d1 r1 hdd1 hr1
  have hnl2 : '\n' ∉ l2 := he2 ▸ hnl d2 r2 hdd2 hr2
  have hl0 : deviceLineId l0 = some i0 :=
    he0 ▸ hi0 ▸ deviceLineId_append d0 r0 hd0 hdd0
  have hl1 : deviceLineId l1 = some i1 :=
    he1 ▸ hi1 ▸ deviceLineId_append d1 r1 hd1 hdd1
  have hl2 : deviceLineId l2 = some i2 :=
    he2 ▸ hi2 ▸ deviceLineId_append d2 r2 hd2 hdd2
  have hsec : splitByGPU input = [(i0, l0), (i1, l1), (i2, l2)] :=
    hin ▸ splitByGPU_threeLines i0 i1 i2 l0 l1 l2 hl0 hl1 hl2
      (splitNL_threeLines l0 l1 l2 hnl0 hnl1 hnl2) h01 h02 h12
  have hlk0 : lookupAssoc (splitByGPU input) i0 = some l0 := by
    rw [hsec]; simp [lookupAssoc]
  have hlk1 : lookupAssoc (splitByGPU input) i1 = some l1 := by
    rw [hsec]; simp [lookupAssoc, h01]
  have hlk2 : lookupAssoc (splitByGPU input) i2 = some l2 := by
    rw [hsec]; simp [lookupAssoc, h02, h12]
  have hmap : parsedGPUs input order = order.map
      (fun id => lineGPU input id ((lookupAssoc (splitByGPU input) id).getD [])) := by
    unfold parsedGPUs
    apply filterMap_eq_map_of_forall
    intro a ha
    have hmem : a ∈ [i0, i1, i2] := hord.subset ha
    simp only [List.mem_cons, List.not_mem_nil, or_false] at hmem
    rcases hmem with rfl | rfl | rfl
    · rw [hlk0]; rfl
    · rw [hlk1]; rfl
    · rw [hlk2]; rfl
  have hlen : (parsedGPUs input order).length = 3 := by
    rw [hmap, List.length_map, hord.length_eq]
    rfl
  have hperm : (parsedGPUs input order).Perm
      [lineGPU input i0 l0, lineGPU input i1 l1, lineGPU input i2 l2] := by
    rw [hmap]
    have hp := hord.map
      (fun id => lineGPU input id ((lookupAssoc (splitByGPU input) id).getD []))
    rw [List.map_cons, List.map_cons, List.map_cons, List.map_nil] at hp
    rw [hlk0, hlk1, hlk2] at hp
    exact hp
  have hinne : input ≠ [] := by
    rw [hin]
    unfold threeLines
    intro h
    have := congrArg List.length h
    simp at this
  have hgne : parsedGPUs input order ≠ [] := by
    intro h
    rw [h] at hlen
    exact absurd hlen (by decide)
  refine ⟨hsec, hlen, hperm, ?_⟩
  unfold ParseRocmSMIOutput
  rw [if_neg hinne, if_neg hgne]

/-- First line of the C6 witness input. -/
def c6l0 : List Char := String.toList "0 a 10.0W 1%  2%"

/-- Second line of the C6 witness input. -/
def c6l1 : List Char := String.toList "1 b 20.0W 3%  4%"

/-- Third line of the C6 witness input. -/
def c6l2 : List Char := String.toList "2 c 30.0W 5%  6%"

/-- The C6 witness input: three device lines for indices 0, 1, 2. -/
def c6in : List Char := threeLines c6l0 c6l1 c6l2

/-- Witness for C6 at a concrete three-line input with iteration order
[0, 1, 2]. -/
theorem C6_three_device_lines_witness :
    splitByGPU c6in = [(0, c6l0), (1, c6l1), (2, c6l2)] ∧
    (parsedGPUs c6in [0, 1, 2]).length = 3 ∧
    (parsedGPUs c6in [0, 1, 2]).Perm
      [lineGPU c6in 0 c6l0, lineGPU c6in 1 c6l1, lineGPU c6in 2 c6l2] ∧
    ParseRocmSMIOutput c6in [0, 1, 2] = Except.ok (parsedGPUs c6in [0, 1, 2]) :=
  C6_three_device_lines ['0'] ['1'] ['2']
    (String.toList "a 10.0W 1%  2%") (String.toList "b 20.0W 3%  4%")
    (String.toList "c 30.0W 5%  6%")
    c6l0 c6l1 c6l2 c6in 0 1 2 [0, 1, 2]
    (by decide) (by decide) (by decide) rfl
    (by decide) (by decide) (by decide)
    (by decide) (by decide) (by decide) (by decide) (by decide) (by decide)
    (by decide) (by decide) (by decide)
    (by decide) (by decide) (by decide)
    (by decide)

/-- A three-device-line input whose discovery order is 2, 0, 1. -/
def c6swap : List Char :=
  String.toList "2 a 10.0W 1%  2%\n0 b 20.0W 3%  4%\n1 c 30.0W 5%  6%\n"

/-- Counterexample to C6 as stated: the device list order is the Go map
iteration order, not the device-index order.  [2, 0, 1] is a valid
iteration order of the section map of this three-line input (it is a
permutation of the key set), and under it the parsed devices list is
[2, 0, 1] — not ordered by device index. -/
theorem C6_order_counterexample :
    ([2, 0, 1] : List Nat).Perm ((splitByGPU c6swap).map Prod.fst) ∧
    (parsedGPUs c6swap [2, 0, 1]).map GPU.id = [2, 0, 1] ∧
    ¬ List.Pairwise (fun a b => a ≤ b) ((parsedGPUs c6swap [2, 0, 1]).map GPU.id) := by
  refine ⟨by decide, by decide, ?_⟩
  intro h
  rw [show (parsedGPUs c6swap [2, 0, 1]).map GPU.id = [2, 0, 1] from by decide] at h
  rcases List.pairwise_cons.mp h with ⟨h2, -⟩
  exact absurd (h2 0 (List.mem_cons_self 0 [1])) (by decide)
